import Mathlib

/-!
Verification of the debianbts SOAP client (src/debianbts/debianbts.py)
against its specification.

The embedding models:
  * the value codec (`_encode_value` / `_decode_value`) over an XML
    element tree,
  * the envelope layer (`_decode_soap_response`),
  * the bug-record parser (`_parse_status`, `_parse_bool`) and the
    derived ordering (`Bugreport.__lt__` / `_get_value` / `SEVERITIES`),
  * the batching logic of `get_status`.

XML elements are modelled after `xml.etree.ElementTree` elements as used
by the source: a tag, the `xsi:type` attribute (as it appears on the
wire, i.e. with an arbitrary namespace prefix before a colon), the
`arrayType` attribute, optional text and a list of children.
Python exceptions become explicit error values; distinct Python
exception classes (ValueError, AssertionError, TypeError, KeyError,
binascii.Error, RuntimeError) are kept distinct.
-/

namespace Debianbts

/-- A native Python value of the shapes `_encode_value` supports:
strings, ints, bools, lists and mappings (modelled as association
lists, in insertion order, as a Python dict iterates). -/
inductive PyValue where
  | str (s : String)
  | int (n : Int)
  | bool (b : Bool)
  | list (xs : List PyValue)
  | map (kvs : List (PyValue × PyValue))

/-- An XML element as seen by the codec: tag, the value of the
`xsi:type` attribute (if present, as serialized on the wire, prefix
included), the value of the `soapenc:arrayType` attribute, the text
content (`None` modelled as `none`), and the child elements. -/
inductive Element where
  | mk (tag : String) (typeAttr : Option String) (arrayType : Option String)
      (text : Option String) (children : List Element)

def Element.tag : Element → String
  | .mk t _ _ _ _ => t

def Element.typeAttr : Element → Option String
  | .mk _ ty _ _ _ => ty

def Element.text : Element → Option String
  | .mk _ _ _ tx _ => tx

def Element.children : Element → List Element
  | .mk _ _ _ _ cs => cs

/-- The result of `_decode_value`: every scalar comes back as a string
(the decoder deliberately stringifies numbers); arrays become lists;
both the `Map` branch and the untyped struct branch produce Python
dicts, modelled as association lists in dict insertion order. -/
inductive DecodedValue where
  | str (s : String)
  | list (xs : List DecodedValue)
  | map (kvs : List (DecodedValue × DecodedValue))

/-- Errors `_decode_value` (and the base64/dict machinery it uses) can
raise.  `valueError` is the explicit `raise ValueError(f"Can't decode ...")`
branch (it names the offending element); `assertionError` is the
`assert` in the Map branch; `typeError` is the TypeError raised by
inserting an unhashable key into a dict; `binasciiError` is the error
`base64.b64decode` raises on malformed input. -/
inductive DecErr where
  | valueError (el : Element)
  | assertionError
  | typeError
  | binasciiError

def DecErr.isValueError : DecErr → Bool
  | .valueError _ => true
  | _ => false

/-- Python `s[s.find(sep) + 1 :]`: everything after the first
occurrence of `sep`, or the whole string when `sep` does not occur
(`find` returns `-1`, so the slice starts at `0`). -/
def dropThroughFirst (sep : Char) : List Char → Option (List Char)
  | [] => none
  | c :: cs => if c = sep then some cs else dropThroughFirst sep cs

def afterFirstPy (sep : Char) (s : String) : String :=
  match dropThroughFirst sep s.toList with
  | some rest => String.mk rest
  | none => s

/-- `typ[typ.find(":") + 1 :]` in `_decode_value`. -/
def afterFirstColon (s : String) : String := afterFirstPy ':' s

/-- `_remove_namespace`: `tag[tag.find("}") + 1 :]`. -/
def removeNamespace (tag : String) : String := afterFirstPy '}' tag

/-- The massaging of the type attribute at the top of `_decode_value`:
`if typ: typ = typ[typ.find(":") + 1 :]` (an absent attribute stays
`None`, an empty attribute value is falsy and stays `""`). -/
def pyTypStrip : Option String → Option String
  | none => none
  | some s => if s = "" then some s else some (afterFirstColon s)

/-- Base64 alphabet value of a character (RFC 4648 standard alphabet),
as in CPython's `binascii` translation table. -/
def b64Val (c : Char) : Option Nat :=
  if 'A' ≤ c ∧ c ≤ 'Z' then some (c.toNat - 65)
  else if 'a' ≤ c ∧ c ≤ 'z' then some (c.toNat - 97 + 26)
  else if '0' ≤ c ∧ c ≤ '9' then some (c.toNat - 48 + 52)
  else if c = '+' then some 62
  else if c = '/' then some 63
  else none

/-- The main loop of CPython's `binascii.a2b_base64` in non-strict mode
(which is what `base64.b64decode` calls): characters outside the
alphabet are skipped; a `=` is counted as padding only once two data
characters of the current quad have been seen, and decoding stops as
soon as padding completes a quad; at end of input a partially filled
quad is an error (`binascii.Error`, e.g. "Incorrect padding").
State: remaining input, position in the current quad (0-3), the bit
accumulator `leftchar`, the running pad count, and the output bytes. -/
def b64Loop : List Char → Nat → Nat → Nat → List Nat → Option (List Nat)
  | [], quadPos, _, _, acc => if quadPos = 0 then some acc else none
  | c :: rest, quadPos, leftchar, pads, acc =>
    if c = '=' then
      if 2 ≤ quadPos then
        if 4 ≤ quadPos + (pads + 1) then some acc
        else b64Loop rest quadPos leftchar (pads + 1) acc
      else b64Loop rest quadPos leftchar pads acc
    else
      match b64Val c with
      | none => b64Loop rest quadPos leftchar pads acc
      | some v =>
        match quadPos with
        | 0 => b64Loop rest 1 v 0 acc
        | 1 => b64Loop rest 2 ((leftchar <<< 6) ||| v) 0
            (acc ++ [(((leftchar <<< 6) ||| v) >>> 4) % 256])
        | 2 => b64Loop rest 3 ((leftchar <<< 6) ||| v) 0
            (acc ++ [(((leftchar <<< 6) ||| v) >>> 2) % 256])
        | _ => b64Loop rest 0 ((leftchar <<< 6) ||| v) 0
            (acc ++ [((leftchar <<< 6) ||| v) % 256])

/-- `base64.b64decode` applied to a `str`: the string must be pure
ASCII (a non-ASCII character raises ValueError in
`_bytes_from_decode_data`), then the `a2b_base64` loop runs.
`none` models an exception. -/
def b64decodePy (s : String) : Option (List Nat) :=
  if s.toList.all (fun c => c.toNat < 128) then b64Loop s.toList 0 0 0 []
  else none

/-- The U+FFFD replacement character. -/
def replChar : Char := Char.ofNat 0xFFFD

/-- Is a byte a UTF-8 continuation byte? -/
def isCont (b : Nat) : Bool := 0x80 ≤ b && b ≤ 0xBF

/-- CPython's UTF-8 decoder with `errors="replace"`: a maximal valid
prefix of a multi-byte sequence that cannot be completed is replaced by
one U+FFFD and decoding restarts at the offending byte; an invalid
start byte is replaced by one U+FFFD.  This never fails: every byte
list decodes to some character list. -/
def utf8Lossy : List Nat → List Char
  | [] => []
  | b :: t =>
    if b ≤ 0x7F then Char.ofNat b :: utf8Lossy t
    else if b < 0xC2 then replChar :: utf8Lossy t
    else if b ≤ 0xDF then
      match t with
      | [] => [replChar]
      | b1 :: t1 =>
        if isCont b1 then
          Char.ofNat ((b - 0xC0) * 64 + (b1 - 0x80)) :: utf8Lossy t1
        else replChar :: utf8Lossy (b1 :: t1)
    else if b ≤ 0xEF then
      match t with
      | [] => [replChar]
      | b1 :: t1 =>
        if (if b = 0xE0 then 0xA0 ≤ b1 && b1 ≤ 0xBF
            else if b = 0xED then 0x80 ≤ b1 && b1 ≤ 0x9F
            else isCont b1) then
          match t1 with
          | [] => [replChar]
          | b2 :: t2 =>
            if isCont b2 then
              Char.ofNat ((b - 0xE0) * 4096 + (b1 - 0x80) * 64 + (b2 - 0x80))
                :: utf8Lossy t2
            else replChar :: utf8Lossy (b2 :: t2)
        else replChar :: utf8Lossy (b1 :: t1)
    else if b ≤ 0xF4 then
      match t with
      | [] => [replChar]
      | b1 :: t1 =>
        if (if b = 0xF0 then 0x90 ≤ b1 && b1 ≤ 0xBF
            else if b = 0xF4 then 0x80 ≤ b1 && b1 ≤ 0x8F
            else isCont b1) then
          match t1 with
          | [] => [replChar]
          | b2 :: t2 =>
            if isCont b2 then
              match t2 with
              | [] => [replChar]
              | b3 :: t3 =>
                if isCont b3 then
                  Char.ofNat ((b - 0xF0) * 262144 + (b1 - 0x80) * 4096
                      + (b2 - 0x80) * 64 + (b3 - 0x80)) :: utf8Lossy t3
                else replChar :: utf8Lossy (b3 :: t3)
            else replChar :: utf8Lossy (b2 :: t2)
        else replChar :: utf8Lossy (b1 :: t1)
    else replChar :: utf8Lossy t

/-- `bytes.decode("utf-8", errors="replace")` as a total function into
strings. -/
def utf8LossyStr (bs : List Nat) : String := String.mk (utf8Lossy bs)

/-- Is a decoded value hashable in Python (usable as a dict key)?
Strings are; lists and dicts raise TypeError. -/
def pyHashable : DecodedValue → Bool
  | .str _ => true
  | _ => false

mutual
/-- Structural equality test on decoded values.  The dict model below
only ever compares keys, and every key that reaches a dict is a
hashable value, i.e. a string (anything else raises TypeError first),
where this coincides with Python `==`. -/
def dvBeq : DecodedValue → DecodedValue → Bool
  | .str a, .str b => a = b
  | .list a, .list b => dvListBeq a b
  | .map a, .map b => dvPairsBeq a b
  | _, _ => false

def dvListBeq : List DecodedValue → List DecodedValue → Bool
  | [], [] => true
  | a :: as_, b :: bs => dvBeq a b && dvListBeq as_ bs
  | _, _ => false

def dvPairsBeq : List (DecodedValue × DecodedValue) →
    List (DecodedValue × DecodedValue) → Bool
  | [], [] => true
  | (k1, v1) :: as_, (k2, v2) :: bs =>
    dvBeq k1 k2 && dvBeq v1 v2 && dvPairsBeq as_ bs
  | _, _ => false
end

/-- Python dict insertion on an association-list model: an existing
key keeps its position and gets the new value, a new key is appended. -/
def pyDictInsert (d : List (DecodedValue × DecodedValue))
    (k v : DecodedValue) : List (DecodedValue × DecodedValue) :=
  if (d.find? (fun p => dvBeq p.1 k)).isSome then
    d.map (fun p => if dvBeq p.1 k then (k, v) else p)
  else d ++ [(k, v)]

mutual
/-- `_decode_value`: branch on the (prefix-stripped) `xsi:type`
attribute; scalars come back as the raw text, `base64Binary` is
base64-decoded then UTF-8-decoded with replacement, `Array` decodes
children in order, `Map` asserts each child has exactly two
sub-elements then builds a dict from decoded (key, value) pairs, an
absent type attribute decodes as an anonymous struct keyed by
namespace-stripped child tags, and anything else raises ValueError. -/
def decodeValue : Element → Except DecErr DecodedValue
  | .mk tag typA arrA txt children =>
    let typ := pyTypStrip typA
    let text := txt.getD ""
    if typ = some "string" ∨ typ = some "int" ∨ typ = some "float" then
      .ok (.str text)
    else if typ = some "base64Binary" then
      match b64decodePy text with
      | some bs => .ok (.str (utf8LossyStr bs))
      | none => .error .binasciiError
    else if typ = some "Array" then
      (decodeList children).map .list
    else if typ = some "Map" then
      if children.all (fun item => item.children.length = 2) then
        (decodeMapItems children []).map .map
      else .error .assertionError
    else if typ = none then
      (decodeStructItems children []).map .map
    else .error (.valueError (.mk tag typA arrA txt children))

/-- `[_decode_value(el) for el in element]` in the Array branch. -/
def decodeList : List Element → Except DecErr (List DecodedValue)
  | [] => .ok []
  | e :: es => do
    let v ← decodeValue e
    let vs ← decodeList es
    .ok (v :: vs)

/-- The dict comprehension of the Map branch:
`{_decode_value(item[0]): _decode_value(item[1]) for item in element}`
(key decoded before value, per-item dict insertion, unhashable keys
raise TypeError).  The catch-all arm is unreachable under the arity
assert that guards this call. -/
def decodeMapItems : List Element → List (DecodedValue × DecodedValue) →
    Except DecErr (List (DecodedValue × DecodedValue))
  | [], acc => .ok acc
  | item :: rest, acc =>
    match item with
    | .mk _ _ _ _ [c0, c1] => do
      let k ← decodeValue c0
      let v ← decodeValue c1
      if pyHashable k then decodeMapItems rest (pyDictInsert acc k v)
      else .error .typeError
    | _ => .error .assertionError

/-- The dict comprehension of the untyped-struct branch:
`{_remove_namespace(item.tag): _decode_value(item) for item in element}`. -/
def decodeStructItems : List Element → List (DecodedValue × DecodedValue) →
    Except DecErr (List (DecodedValue × DecodedValue))
  | [], acc => .ok acc
  | e :: es, acc => do
    let v ← decodeValue e
    decodeStructItems es (pyDictInsert acc (.str (removeNamespace e.tag)) v)
end

/-- The flattening `_encode_value` applies to a mapping before sending
it as an array: `[x for pair in value.items() for x in pair]`. -/
def flattenMap : List (PyValue × PyValue) → List PyValue
  | [] => []
  | (k, v) :: rest => k :: v :: flattenMap rest

theorem flattenMap_sizeOf (kvs : List (PyValue × PyValue)) :
    sizeOf (flattenMap kvs) = sizeOf kvs := by
  induction kvs with
  | nil => rfl
  | cons p rest ih => cases p; simp [flattenMap, ih]; omega

mutual
/-- `_encode_value`: strings get type `xsd:string` with the string as
text; ints and bools get type `xsd:int` with the decimal string of
`int(value)` as text; lists (and mappings, flattened to alternating
key/value lists first) get type `soapenc:Array` with an `arrayType`
attribute and one child named `item` per entry.  The namespace
prefixes model what the serializer emits on the wire; the decoder
strips them.  (Values outside these shapes raise ValueError and are
not representable in `PyValue`.)  A mapping's flattened entries are
encoded pairwise here; `encodePairs_eq_encodeItems_flattenMap` below
shows this equals encoding the flattened list, as the source writes
it. -/
def encodeValue (name : String) : PyValue → Element
  | .str s => .mk name (some "xsd:string") none (some s) []
  | .int n => .mk name (some "xsd:int") none (some (toString n)) []
  | .bool b => .mk name (some "xsd:int") none (some (if b then "1" else "0")) []
  | .list xs =>
    .mk name (some "soapenc:Array")
      (some ("xsd:anyType[" ++ toString xs.length ++ "]")) none
      (encodeItems xs)
  | .map kvs =>
    .mk name (some "soapenc:Array")
      (some ("xsd:anyType[" ++ toString (flattenMap kvs).length ++ "]")) none
      (encodePairs kvs)

/-- `for x in value: _encode_value(el, "item", x)`. -/
def encodeItems : List PyValue → List Element
  | [] => []
  | v :: vs => encodeValue "item" v :: encodeItems vs

/-- Item encoding of a flattened mapping, pair by pair. -/
def encodePairs : List (PyValue × PyValue) → List Element
  | [] => []
  | (k, v) :: rest =>
    encodeValue "item" k :: encodeValue "item" v :: encodePairs rest
end

theorem encodePairs_eq_encodeItems_flattenMap
    (kvs : List (PyValue × PyValue)) :
    encodePairs kvs = encodeItems (flattenMap kvs) := by
  induction kvs with
  | nil => rfl
  | cons p rest ih => cases p; simp [encodePairs, flattenMap, encodeItems, ih]

/-- A single-quote character, used by the `repr` model below. -/
def sqChar : Char := Char.ofNat 39

mutual
/-- Model of CPython `repr` on decoded values, as reached through
`str()` on non-string values in `_parse_status` (e.g.
`str(bug_el["tags"])`).  String escaping inside `repr` is not
modelled (plain single-quote wrapping); no claim exercises `str()` on
anything but string-valued fields, where `str` returns the value
itself and this function is not consulted. -/
def pyRepr : DecodedValue → String
  | .str s => String.singleton sqChar ++ s ++ String.singleton sqChar
  | .list xs => "[" ++ pyReprList xs ++ "]"
  | .map kvs => "\x7b" ++ pyReprPairs kvs ++ "\x7d"

def pyReprList : List DecodedValue → String
  | [] => ""
  | [x] => pyRepr x
  | x :: xs => pyRepr x ++ ", " ++ pyReprList xs

def pyReprPairs : List (DecodedValue × DecodedValue) → String
  | [] => ""
  | [(k, v)] => pyRepr k ++ ": " ++ pyRepr v
  | (k, v) :: xs => pyRepr k ++ ": " ++ pyRepr v ++ ", " ++ pyReprPairs xs
end

/-- Python `str()` on a decoded value: identity on strings, `repr`
otherwise. -/
def pyStr : DecodedValue → String
  | .str s => s
  | v => pyRepr v

/-- One-pass tokenizer behind `str.split()`: `cur` accumulates the
current token in reverse; whitespace closes a token, empty tokens are
never produced. -/
def splitWsAux : List Char → List Char → List (List Char)
  | [], cur => if cur.isEmpty then [] else [cur.reverse]
  | c :: cs, cur =>
    if c.isWhitespace then
      if cur.isEmpty then splitWsAux cs []
      else cur.reverse :: splitWsAux cs []
    else splitWsAux cs (c :: cur)

/-- Python `str.split()` with no argument: split on whitespace runs,
no empty tokens. -/
def pySplitWs (s : String) : List String :=
  (splitWsAux s.toList []).map String.mk

/-- Drop leading whitespace characters. -/
def dropLeadingWs : List Char → List Char
  | [] => []
  | c :: cs => if c.isWhitespace then dropLeadingWs cs else c :: cs

/-- Python `str.strip()` with no argument: remove leading and trailing
whitespace. -/
def pyStrip (s : String) : String :=
  String.mk ((dropLeadingWs ((dropLeadingWs s.toList).reverse)).reverse)

/-- One-pass splitter behind `str.split(sep)` for a one-character
separator: keeps empty segments, always yields at least one segment. -/
def splitSepAux (sep : Char) : List Char → List Char → List (List Char)
  | [], cur => [cur.reverse]
  | c :: cs, cur =>
    if c = sep then cur.reverse :: splitSepAux sep cs []
    else splitSepAux sep cs (c :: cur)

/-- Python `str.split(",")`. -/
def pySplitComma (s : String) : List String :=
  (splitSepAux ',' s.toList []).map String.mk

/-- Digit-string to number (all characters must be decimal digits and
there must be at least one). -/
def digitsToNat : List Char → Option Nat
  | [] => none
  | l =>
    if l.all Char.isDigit then
      some (l.foldl (fun acc c => acc * 10 + (c.toNat - 48)) 0)
    else none

/-- Python `int(s)` on a string: optional surrounding whitespace, an
optional sign, then decimal digits.  (Digit-group underscores, a
rarely used Python literal feature, are not modelled; no status field
in the claims uses them.)  `none` models a ValueError. -/
def pyIntOfStr (s : String) : Option Int :=
  match (pyStrip s).toList with
  | '+' :: ds => (digitsToNat ds).map Int.ofNat
  | '-' :: ds => (digitsToNat ds).map (fun n => -(n : Int))
  | ds => (digitsToNat ds).map Int.ofNat

/-- Split a character list at the first occurrence of `sep`:
`(before, some after)` when found, `(l, none)` otherwise. -/
def splitAtFirst (sep : Char) : List Char → List Char × Option (List Char)
  | [] => ([], none)
  | c :: cs =>
    if c = sep then ([], some cs)
    else
      match splitAtFirst sep cs with
      | (pre, rest) => (c :: pre, rest)

def allDigits (l : List Char) : Bool := !l.isEmpty && l.all Char.isDigit

/-- Mantissa of a float literal: `digits`, `digits.`, `.digits` or
`digits.digits`. -/
def floatMantOk (l : List Char) : Bool :=
  match splitAtFirst '.' l with
  | (int_, none) => allDigits int_
  | (int_, some frac) =>
    (allDigits int_ || int_.isEmpty) && (allDigits frac || frac.isEmpty)
      && !(int_.isEmpty && frac.isEmpty)

/-- Exponent tail of a float literal: optional sign then digits. -/
def floatExpOk (l : List Char) : Bool :=
  match l with
  | '+' :: ds => allDigits ds
  | '-' :: ds => allDigits ds
  | ds => allDigits ds

/-- Does Python `float(s)` accept the string `s`?  Optional surrounding
whitespace and sign, then `inf`/`infinity`/`nan` (case-insensitive) or
a decimal mantissa with optional exponent.  (Digit-group underscores
are again not modelled.) -/
def pyFloatStrOk (s : String) : Bool :=
  let l := (pyStrip s).toList.map Char.toLower
  let body := match l with
    | '+' :: r => r
    | '-' :: r => r
    | r => r
  if body = "inf".toList || body = "infinity".toList || body = "nan".toList then
    true
  else
    match splitAtFirst 'e' body with
    | (m, none) => floatMantOk m
    | (m, some e) => floatMantOk m && floatExpOk e

/-- Errors `_parse_status` can raise: a missing dict key, a
ValueError from `int()`/`float()` on an unparsable string, or a
TypeError from `int()`/`float()` on a non-string value. -/
inductive PErr where
  | keyError (field : String)
  | valueError (txt : String)
  | typeError

/-- `_parse_bool`, Perl truthiness: `x not in ("", "0")` — false
exactly for the strings `""` and `"0"` (Python `==` between a
non-string decoded value and a string is always false, so any
non-string value is truthy). -/
def parseBool (x : DecodedValue) : Bool :=
  match x with
  | .str s => !(s = "" || s = "0")
  | _ => true

/-- The decoded bug status as `_parse_status` consumes it: a Python
dict from field name to decoded value, modelled as an association
list. -/
def lookupField (bugEl : List (String × DecodedValue)) (f : String) :
    Option DecodedValue :=
  (bugEl.find? (fun p => p.1 = f)).map (fun p => p.2)

/-- `bug_el[field]`: KeyError when the field is absent. -/
def getField (bugEl : List (String × DecodedValue)) (f : String) :
    Except PErr DecodedValue :=
  match lookupField bugEl f with
  | some v => .ok v
  | none => .error (.keyError f)

/-- `float(x)` used only for its exceptions: the timestamp fields are
checked to be float-parsable (the resulting UTC `datetime` values are
not themselves modelled; no claim mentions them, and the record keeps
the raw decoded value). -/
def pyFloatCheck (v : DecodedValue) : Except PErr Unit :=
  match v with
  | .str s => if pyFloatStrOk s then .ok () else .error (.valueError s)
  | _ => .error .typeError

/-- `int(x)` on a decoded value. -/
def pyIntOfDV (v : DecodedValue) : Except PErr Int :=
  match v with
  | .str s =>
    match pyIntOfStr s with
    | some n => .ok n
    | none => .error (.valueError s)
  | _ => .error .typeError

/-- `[int(i) for i in items]`. -/
def parseIntList : List String → Except PErr (List Int)
  | [] => .ok []
  | s :: rest => do
    match pyIntOfStr s with
    | some n =>
      let ns ← parseIntList rest
      .ok (n :: ns)
    | none => .error (.valueError s)

/-- The `Bugreport` record, with the fields `_parse_status` sets.
Plain fields hold the decoded value verbatim; `date`/`log_modified`
hold the raw decoded value (their conversion to UTC datetimes is not
modelled, but their float-parsability is enforced by the parser). -/
structure Bugreport where
  originator : DecodedValue
  subject : DecodedValue
  msgid : DecodedValue
  package : DecodedValue
  severity : DecodedValue
  owner : DecodedValue
  summary : DecodedValue
  location : DecodedValue
  source : DecodedValue
  pending : DecodedValue
  forwarded : DecodedValue
  found_versions : DecodedValue
  fixed_versions : DecodedValue
  date : DecodedValue
  log_modified : DecodedValue
  tags : List String
  done : Bool
  done_by : Option DecodedValue
  archived : Bool
  unarchived : Bool
  bug_num : Int
  mergedwith : List Int
  blockedby : List Int
  blocks : List Int
  affects : List String

/-- `_parse_status`, with the source's field and effect order: the
plain-field loop (KeyError on a missing field), the two timestamp
conversions, `tags` split on whitespace, the three Perl booleans,
`done_by` from the raw done field, `bug_num` through `int()`, the
three whitespace-separated integer lists, and `affects` split on
commas with empty segments dropped and the rest stripped. -/
def parseStatus (bugEl : List (String × DecodedValue)) :
    Except PErr Bugreport := do
  let originator ← getField bugEl "originator"
  let subject ← getField bugEl "subject"
  let msgid ← getField bugEl "msgid"
  let package ← getField bugEl "package"
  let severity ← getField bugEl "severity"
  let owner ← getField bugEl "owner"
  let summary ← getField bugEl "summary"
  let location ← getField bugEl "location"
  let source ← getField bugEl "source"
  let pending ← getField bugEl "pending"
  let forwarded ← getField bugEl "forwarded"
  let found_versions ← getField bugEl "found_versions"
  let fixed_versions ← getField bugEl "fixed_versions"
  let date ← getField bugEl "date"
  let _ ← pyFloatCheck date
  let log_modified ← getField bugEl "log_modified"
  let _ ← pyFloatCheck log_modified
  let tagsV ← getField bugEl "tags"
  let doneV ← getField bugEl "done"
  let doneByV ← getField bugEl "done"
  let archivedV ← getField bugEl "archived"
  let unarchivedV ← getField bugEl "unarchived"
  let bugNumV ← getField bugEl "bug_num"
  let bug_num ← pyIntOfDV bugNumV
  let mergedV ← getField bugEl "mergedwith"
  let mergedwith ← parseIntList (pySplitWs (pyStr mergedV))
  let blockedbyV ← getField bugEl "blockedby"
  let blockedby ← parseIntList (pySplitWs (pyStr blockedbyV))
  let blocksV ← getField bugEl "blocks"
  let blocks ← parseIntList (pySplitWs (pyStr blocksV))
  let affectsV ← getField bugEl "affects"
  .ok
    { originator, subject, msgid, package, severity, owner, summary,
      location, source, pending, forwarded, found_versions, fixed_versions,
      date, log_modified,
      tags := pySplitWs (pyStr tagsV),
      done := parseBool doneV,
      done_by := if parseBool doneV then some doneByV else none,
      archived := parseBool archivedV,
      unarchived := parseBool unarchivedV,
      bug_num, mergedwith, blockedby, blocks,
      affects :=
        ((pySplitComma (pyStr affectsV)).filter (fun f => f ≠ "")).map pyStrip }

/-- The `SEVERITIES` dict: rank of each of the seven known severity
levels. -/
def SEVERITIES (s : String) : Option Nat :=
  if s = "critical" then some 7
  else if s = "grave" then some 6
  else if s = "serious" then some 5
  else if s = "important" then some 4
  else if s = "normal" then some 3
  else if s = "minor" then some 2
  else if s = "wishlist" then some 1
  else none

/-- `SEVERITIES[self.severity]`: the severity attribute holds whatever
the status dict carried; a non-string or unknown value makes the
lookup raise (modelled as `none`). -/
def sevRankOf (v : DecodedValue) : Option Nat :=
  match v with
  | .str s => SEVERITIES s
  | _ => none

/-- The openness tier of `_get_value`: 0 for archived, 10 for
done-but-not-archived, 20 otherwise. -/
def opennessBase (b : Bugreport) : Nat :=
  if b.archived then 0 else if b.done then 10 else 20

/-- `Bugreport._get_value`: the openness tier plus the severity
rank. -/
def getValue (b : Bugreport) : Option Nat :=
  (sevRankOf b.severity).map (fun r => opennessBase b + r)

/-- `Bugreport.__lt__`; `none` models the KeyError a comparison
raises when either severity is unknown. -/
def bugLt (a b : Bugreport) : Option Bool :=
  match getValue a, getValue b with
  | some x, some y => some (decide (x < y))
  | _, _ => none

/-- `Bugreport.__eq__`. -/
def bugEq (a b : Bugreport) : Option Bool :=
  match getValue a, getValue b with
  | some x, some y => some (decide (x = y))
  | _, _ => none

/-- `BATCH_SIZE`. -/
def BATCH_SIZE : Nat := 500

/-- The batch partition of `get_status`:
`range(0, len(numbers), BATCH_SIZE)` with `numbers[i : i + BATCH_SIZE]`
produces the consecutive chunks of at most `BATCH_SIZE` ids. -/
def chunkBatches (l : List Int) : List (List Int) :=
  if l.isEmpty then [] else l.take BATCH_SIZE :: chunkBatches (l.drop BATCH_SIZE)
termination_by l.length
decreasing_by
  simp_all [List.isEmpty_iff]
  cases l with
  | nil => simp_all
  | cons a t => simp [BATCH_SIZE]; try omega

/-- `get_status` on a list input, with the SOAP round-trip abstracted:
`call batch` stands for the sequence of decoded bug field-groups the
server returns for one batch (`result_dict.values()`); one call is
made per batch and the parsed results are concatenated in batch
order. -/
def getStatusModel (call : List Int → List (List (String × DecodedValue)))
    (nrs : List Int) : Except PErr (List Bugreport) := do
  let perBatch ← (chunkBatches nrs).mapM (fun batch => (call batch).mapM parseStatus)
  .ok perBatch.flatten

/-- Number of SOAP calls `get_status` issues: one per batch. -/
def numSoapCalls (nrs : List Int) : Nat := (chunkBatches nrs).length

/-- The SOAP envelope namespace. -/
def SOAPENV : String := "http://schemas.xmlsoap.org/soap/envelope/"

def bodyTag : String := "\x7b" ++ SOAPENV ++ "\x7dBody"

def faultTag : String := "\x7b" ++ SOAPENV ++ "\x7dFault"

/-- `root.find("tag1/tag2")` in ElementTree: the first grandchild, in
document order, whose parent matches `t1` and which matches `t2`. -/
def findPath2 (root : Element) (t1 t2 : String) : Option Element :=
  (((root.children.filter (fun c => c.tag = t1)).map
      (fun c => c.children.filter (fun g => g.tag = t2))).flatten).head?

/-- `root.find(f"{...}Body/*[1]/*[1]")`: for each `Body` child its
first child, then each of those nodes' first child; first match in
document order. -/
def findAnswer (root : Element) : Option Element :=
  (((root.children.filter (fun c => c.tag = bodyTag)).filterMap
      (fun b => b.children.head?)).filterMap
      (fun m => m.children.head?)).head?

/-- Errors `_decode_soap_response` can raise: the `RuntimeError` of
the fault branch, or an error propagated from `_decode_value`. -/
inductive SoapErr where
  | fault (msg : String)
  | dec (e : DecErr)

/-- `_decode_soap_response`: a fault in the body raises RuntimeError
with the faultstring text (or "Unknown" when the fault has no
faultstring element; a faultstring with no text is formatted as the
Python literal "None"); otherwise the first grandchild of the body is
decoded, an absent one yielding `None`. -/
def decodeSoapResponse (root : Element) : Except SoapErr (Option DecodedValue) :=
  match findPath2 root bodyTag faultTag with
  | some faultEl =>
    let message :=
      match faultEl.children.find? (fun c => c.tag = "faultstring") with
      | some el => el.text.getD "None"
      | none => "Unknown"
    .error (.fault ("SOAP fault: " ++ message))
  | none =>
    match findAnswer root with
    | none => .ok none
    | some ans =>
      match decodeValue ans with
      | .ok v => .ok (some v)
      | .error e => .error (.dec e)

/-! ## General helper lemmas -/

theorem except_bind_ok {ε α β : Type} {x : Except ε α} {f : α → Except ε β}
    {b : β} (h : x.bind f = .ok b) : ∃ a, x = .ok a ∧ f a = .ok b := by
  cases x with
  | error e => simp [Except.bind] at h
  | ok a => exact ⟨a, rfl, by simpa [Except.bind] using h⟩

/-- Evaluated forms of the wire type attributes the encoder emits. -/
theorem pyTypStrip_xsd_string : pyTypStrip (some "xsd:string") = some "string" := rfl

theorem pyTypStrip_xsd_int : pyTypStrip (some "xsd:int") = some "int" := rfl

theorem pyTypStrip_soapenc_array :
    pyTypStrip (some "soapenc:Array") = some "Array" := rfl

/-! ## C1: the encode/decode round trip -/

mutual
/-- The normal form the codec round trip actually produces: strings
survive, ints and bools come back as the decimal string of their
integer value, lists map the normal form over their entries, and
mappings come back as the *flattened* alternating key/value list. -/
def roundTripExpected : PyValue → DecodedValue
  | .str s => .str s
  | .int n => .str (toString n)
  | .bool b => .str (if b then "1" else "0")
  | .list xs => .list (roundTripList xs)
  | .map kvs => .list (roundTripPairs kvs)

def roundTripList : List PyValue → List DecodedValue
  | [] => []
  | v :: vs => roundTripExpected v :: roundTripList vs

def roundTripPairs : List (PyValue × PyValue) → List DecodedValue
  | [] => []
  | (k, v) :: rest =>
    roundTripExpected k :: roundTripExpected v :: roundTripPairs rest
end

theorem roundTripPairs_eq_list_flattenMap (kvs : List (PyValue × PyValue)) :
    roundTripPairs kvs = roundTripList (flattenMap kvs) := by
  induction kvs with
  | nil => rfl
  | cons p rest ih =>
    cases p; simp [roundTripPairs, flattenMap, roundTripList, ih]

theorem decodeList_encodeItems (n : Nat)
    (ih : ∀ w : PyValue, sizeOf w ≤ n → ∀ nm : String,
      decodeValue (encodeValue nm w) = .ok (roundTripExpected w))
    (xs : List PyValue) (hxs : ∀ x ∈ xs, sizeOf x ≤ n) :
    decodeList (encodeItems xs) = .ok (roundTripList xs) := by
  induction xs with
  | nil => rfl
  | cons x rest ihl =>
    have hx := ih x (hxs x (List.mem_cons_self x rest)) "item"
    have hr := ihl (fun y hy => hxs y (List.mem_cons_of_mem x hy))
    simp [encodeItems, decodeList, hx, hr, roundTripList, Except.bind,
      Bind.bind, Except.pure, pure]

theorem decode_encode_aux :
    ∀ n : Nat, ∀ v : PyValue, sizeOf v ≤ n → ∀ name : String,
      decodeValue (encodeValue name v) = .ok (roundTripExpected v) := by
  intro n
  induction n with
  | zero =>
    intro v hv
    cases v <;> simp_all
  | succ n ih =>
    intro v hv name
    cases v with
    | str s =>
      simp [encodeValue, decodeValue, pyTypStrip_xsd_string, roundTripExpected]
    | int i =>
      simp [encodeValue, decodeValue, pyTypStrip_xsd_int, roundTripExpected]
    | bool b =>
      simp [encodeValue, decodeValue, pyTypStrip_xsd_int, roundTripExpected]
    | list xs =>
      have hsz : sizeOf xs ≤ n := by simp at hv; omega
      have hel : ∀ x ∈ xs, sizeOf x ≤ n := fun x hx => by
        have := List.sizeOf_lt_of_mem hx; omega
      have hli := decodeList_encodeItems n ih xs hel
      simp [encodeValue, decodeValue, pyTypStrip_soapenc_array, hli,
        roundTripExpected, Except.map]
    | map kvs =>
      have hsz : sizeOf kvs ≤ n := by simp at hv; omega
      have hfl : sizeOf (flattenMap kvs) ≤ n := by
        rw [flattenMap_sizeOf]; exact hsz
      have hel : ∀ x ∈ flattenMap kvs, sizeOf x ≤ n := fun x hx => by
        have := List.sizeOf_lt_of_mem hx; omega
      have hli := decodeList_encodeItems n ih (flattenMap kvs) hel
      simp [encodeValue, decodeValue, pyTypStrip_soapenc_array,
        encodePairs_eq_encodeItems_flattenMap, hli, roundTripExpected,
        roundTripPairs_eq_list_flattenMap, Except.map]

/-- C1 (amended): decoding the element produced by encoding a
supported native value yields its round-trip normal form — strings
reproduce themselves (`decode(encode(s)) = s`), integers and booleans
come back as the decimal string of their integer value
(`decode(encode(n)) = str(n)`), lists round-trip elementwise, but a
mapping does *not* come back as a mapping: it comes back as the
flattened alternating key/value list it was encoded as. -/
theorem claim1_roundtrip (name : String) (v : PyValue) :
    decodeValue (encodeValue name v) = .ok (roundTripExpected v) :=
  decode_encode_aux (sizeOf v) v (Nat.le_refl _) name

/-- Is a decode result a mapping? -/
def isMapResult : Except DecErr DecodedValue → Bool
  | .ok (.map _) => true
  | _ => false

/-- C1 counterexample: the mapping `{"a": "b"}` encodes to an Array
element, so decoding the encoded form yields the flattened list
`["a", "b"]` and not a mapping — the round trip does not reproduce
mapping values. -/
theorem claim1_counterexample :
    decodeValue (encodeValue "arg" (PyValue.map [(.str "a", .str "b")]))
        = .ok (.list [.str "a", .str "b"])
      ∧ isMapResult
          (decodeValue (encodeValue "arg" (PyValue.map [(.str "a", .str "b")])))
        = false :=
  ⟨rfl, rfl⟩


/-! ## C2 and C9: severity handling and the Perl booleans -/

def isOkE {e a : Type} : Except e a → Bool
  | .ok _ => true
  | .error _ => false

theorem getField_ok {bugEl : List (String × DecodedValue)} {f : String}
    {v : DecodedValue} (h : getField bugEl f = .ok v) :
    lookupField bugEl f = some v := by
  unfold getField at h
  cases hl : lookupField bugEl f with
  | none => rw [hl] at h; exact absurd h (by simp)
  | some w => rw [hl] at h; simp_all

/-- Inversion of a successful `_parse_status`: the severity field was
present and is stored verbatim, and the three Perl booleans and
`done_by` are determined by the raw `done`/`archived`/`unarchived`
fields exactly as the source computes them. -/
theorem parseStatus_ok_spec (bugEl : List (String × DecodedValue))
    (r : Bugreport) (h : parseStatus bugEl = .ok r) :
    lookupField bugEl "severity" = some r.severity
      ∧ (∃ doneV, lookupField bugEl "done" = some doneV
          ∧ r.done = parseBool doneV
          ∧ r.done_by = (if parseBool doneV then some doneV else none))
      ∧ (∃ aV, lookupField bugEl "archived" = some aV
          ∧ r.archived = parseBool aV)
      ∧ (∃ uV, lookupField bugEl "unarchived" = some uV
          ∧ r.unarchived = parseBool uV) := by
  unfold parseStatus at h
  obtain ⟨originator, h1, h⟩ := except_bind_ok h
  obtain ⟨subject, h2, h⟩ := except_bind_ok h
  obtain ⟨msgid, h3, h⟩ := except_bind_ok h
  obtain ⟨package, h4, h⟩ := except_bind_ok h
  obtain ⟨severity, h5, h⟩ := except_bind_ok h
  obtain ⟨owner, h6, h⟩ := except_bind_ok h
  obtain ⟨summary, h7, h⟩ := except_bind_ok h
  obtain ⟨location, h8, h⟩ := except_bind_ok h
  obtain ⟨source, h9, h⟩ := except_bind_ok h
  obtain ⟨pending, h10, h⟩ := except_bind_ok h
  obtain ⟨forwarded, h11, h⟩ := except_bind_ok h
  obtain ⟨found_versions, h12, h⟩ := except_bind_ok h
  obtain ⟨fixed_versions, h13, h⟩ := except_bind_ok h
  obtain ⟨date, h14, h⟩ := except_bind_ok h
  obtain ⟨u1, h15, h⟩ := except_bind_ok h
  obtain ⟨log_modified, h16, h⟩ := except_bind_ok h
  obtain ⟨u2, h17, h⟩ := except_bind_ok h
  obtain ⟨tagsV, h18, h⟩ := except_bind_ok h
  obtain ⟨doneV, h19, h⟩ := except_bind_ok h
  obtain ⟨doneByV, h20, h⟩ := except_bind_ok h
  obtain ⟨archivedV, h21, h⟩ := except_bind_ok h
  obtain ⟨unarchivedV, h22, h⟩ := except_bind_ok h
  obtain ⟨bugNumV, h23, h⟩ := except_bind_ok h
  obtain ⟨bug_num, h24, h⟩ := except_bind_ok h
  obtain ⟨mergedV, h25, h⟩ := except_bind_ok h
  obtain ⟨mergedwith, h26, h⟩ := except_bind_ok h
  obtain ⟨blockedbyV, h27, h⟩ := except_bind_ok h
  obtain ⟨blockedby, h28, h⟩ := except_bind_ok h
  obtain ⟨blocksV, h29, h⟩ := except_bind_ok h
  obtain ⟨blocks, h30, h⟩ := except_bind_ok h
  obtain ⟨affectsV, h31, h⟩ := except_bind_ok h
  injection h with hr
  subst hr
  have hdd : doneByV = doneV := by
    have e1 := getField_ok h19
    have e2 := getField_ok h20
    rw [e1] at e2
    exact (Option.some.injEq _ _).mp e2.symm
  refine ⟨getField_ok h5,
    ⟨doneV, getField_ok h19, rfl, ?_⟩,
    ⟨archivedV, getField_ok h21, rfl⟩,
    ⟨unarchivedV, getField_ok h22, rfl⟩⟩
  show (if parseBool doneV then some doneByV else none)
      = (if parseBool doneV then some doneV else none)
  rw [hdd]

/-- C2 (amended): `_parse_status` fails (with a missing-field
KeyError) when the severity field is absent, but it does *not*
validate the severity value: a present severity is stored in the
record verbatim, whether or not it is one of the seven known levels
(an unknown severity only raises later, when an ordering value is
computed). -/
theorem claim2_severity (bugEl : List (String × DecodedValue)) :
    (lookupField bugEl "severity" = none → isOkE (parseStatus bugEl) = false)
      ∧ (∀ r : Bugreport, parseStatus bugEl = .ok r →
          lookupField bugEl "severity" = some r.severity) := by
  constructor
  · intro hnone
    cases hps : parseStatus bugEl with
    | error e => rfl
    | ok r =>
      have hs := (parseStatus_ok_spec bugEl r hps).1
      rw [hnone] at hs
      exact absurd hs (by simp)
  · intro r hps
    exact (parseStatus_ok_spec bugEl r hps).1

/-- A complete decoded status whose severity is the unknown value
"bogus". -/
def c2BugEl : List (String × DecodedValue) :=
  [("originator", .str "o"), ("subject", .str "s"), ("msgid", .str "m"),
   ("package", .str "p"), ("severity", .str "bogus"), ("owner", .str "w"),
   ("summary", .str ""), ("location", .str "db-h"), ("source", .str "src"),
   ("pending", .str "pending"), ("forwarded", .str ""),
   ("found_versions", .str ""), ("fixed_versions", .str ""),
   ("date", .str "123"), ("log_modified", .str "456.5"),
   ("tags", .str "patch"), ("done", .str ""),
   ("archived", .str "0"), ("unarchived", .str ""),
   ("bug_num", .str "1234"), ("mergedwith", .str ""),
   ("blockedby", .str ""), ("blocks", .str ""),
   ("affects", .str "")]

/-- The same status with the severity field removed. -/
def c2BugElNoSev : List (String × DecodedValue) :=
  [("originator", .str "o"), ("subject", .str "s"), ("msgid", .str "m"),
   ("package", .str "p"), ("owner", .str "w"),
   ("summary", .str ""), ("location", .str "db-h"), ("source", .str "src"),
   ("pending", .str "pending"), ("forwarded", .str ""),
   ("found_versions", .str ""), ("fixed_versions", .str ""),
   ("date", .str "123"), ("log_modified", .str "456.5"),
   ("tags", .str "patch"), ("done", .str ""),
   ("archived", .str "0"), ("unarchived", .str ""),
   ("bug_num", .str "1234"), ("mergedwith", .str ""),
   ("blockedby", .str ""), ("blocks", .str ""),
   ("affects", .str "")]

/-- The severity a successful parse stores, `none` on a failed
parse. -/
def parsedSeverity (bugEl : List (String × DecodedValue)) :
    Option DecodedValue :=
  match parseStatus bugEl with
  | .ok r => some r.severity
  | .error _ => none

/-- C2 counterexample: a status carrying the unknown severity "bogus"
parses *successfully*, producing a record whose severity is the
unknown value — parsing does not fail on a severity outside the seven
known levels. -/
theorem claim2_counterexample :
    isOkE (parseStatus c2BugEl) = true
      ∧ parsedSeverity c2BugEl = some (.str "bogus")
      ∧ SEVERITIES "bogus" = none :=
  ⟨rfl, rfl, rfl⟩

/-- C2 witness: on the concrete status with no severity field the
parse fails. -/
theorem claim2_witness : isOkE (parseStatus c2BugElNoSev) = false :=
  (claim2_severity c2BugElNoSev).1 rfl

theorem parseBool_eq_false_iff (v : DecodedValue) :
    parseBool v = false ↔ (v = .str "" ∨ v = .str "0") := by
  cases v with
  | str s =>
    by_cases hs : s = "" <;> by_cases h0 : s = "0" <;>
      simp [parseBool, hs, h0]
  | list xs => simp [parseBool]
  | map kvs => simp [parseBool]

/-- C9: for every successfully parsed status, each of the three Perl
booleans is false exactly when its raw field is the empty string or
the literal "0", and `done_by` is present if and only if `done` is
true, in which case it holds the raw done field. -/
theorem claim9_done_flags (bugEl : List (String × DecodedValue))
    (r : Bugreport) (h : parseStatus bugEl = .ok r) :
    (r.done = false ↔ (lookupField bugEl "done" = some (.str "")
        ∨ lookupField bugEl "done" = some (.str "0")))
      ∧ (r.archived = false ↔ (lookupField bugEl "archived" = some (.str "")
          ∨ lookupField bugEl "archived" = some (.str "0")))
      ∧ (r.unarchived = false ↔ (lookupField bugEl "unarchived" = some (.str "")
          ∨ lookupField bugEl "unarchived" = some (.str "0")))
      ∧ r.done_by = (if r.done then lookupField bugEl "done" else none) := by
  obtain ⟨-, ⟨doneV, hd, hdone, hdoneby⟩, ⟨aV, ha, harch⟩, ⟨uV, hu, hunarch⟩⟩ :=
    parseStatus_ok_spec bugEl r h
  refine ⟨?_, ?_, ?_, ?_⟩
  · rw [hdone, hd, parseBool_eq_false_iff]
    constructor
    · rintro (hv | hv) <;> simp [hv]
    · rintro (hv | hv) <;> simp_all
  · rw [harch, ha, parseBool_eq_false_iff]
    constructor
    · rintro (hv | hv) <;> simp [hv]
    · rintro (hv | hv) <;> simp_all
  · rw [hunarch, hu, parseBool_eq_false_iff]
    constructor
    · rintro (hv | hv) <;> simp [hv]
    · rintro (hv | hv) <;> simp_all
  · rw [hdoneby, hdone, hd]

/-- A concrete decoded status for the C9 witness: done by
"Fixer", not archived, unarchived. -/
def c9BugEl : List (String × DecodedValue) :=
  [("originator", .str "o"), ("subject", .str "s"), ("msgid", .str "m"),
   ("package", .str "p"), ("severity", .str "normal"), ("owner", .str "w"),
   ("summary", .str ""), ("location", .str "db-h"), ("source", .str "src"),
   ("pending", .str "done"), ("forwarded", .str ""),
   ("found_versions", .str ""), ("fixed_versions", .str ""),
   ("date", .str "0"), ("log_modified", .str "1"),
   ("tags", .str "patch"), ("done", .str "Fixer"),
   ("archived", .str "0"), ("unarchived", .str "1"),
   ("bug_num", .str "7"), ("mergedwith", .str ""),
   ("blockedby", .str ""), ("blocks", .str ""),
   ("affects", .str "")]

/-- The record `_parse_status` produces for `c9BugEl`. -/
def c9Rec : Bugreport :=
  { originator := .str "o", subject := .str "s", msgid := .str "m",
    package := .str "p", severity := .str "normal", owner := .str "w",
    summary := .str "", location := .str "db-h", source := .str "src",
    pending := .str "done", forwarded := .str "",
    found_versions := .str "", fixed_versions := .str "",
    date := .str "0", log_modified := .str "1",
    tags := ["patch"], done := true, done_by := some (.str "Fixer"),
    archived := false, unarchived := true, bug_num := 7,
    mergedwith := [], blockedby := [], blocks := [], affects := [] }

/-- C9 witness: the instantiation of `claim9_done_flags` at the
concrete status. -/
theorem claim9_witness :
    (c9Rec.done = false ↔ (lookupField c9BugEl "done" = some (.str "")
        ∨ lookupField c9BugEl "done" = some (.str "0")))
      ∧ (c9Rec.archived = false ↔
          (lookupField c9BugEl "archived" = some (.str "")
            ∨ lookupField c9BugEl "archived" = some (.str "0")))
      ∧ (c9Rec.unarchived = false ↔
          (lookupField c9BugEl "unarchived" = some (.str "")
            ∨ lookupField c9BugEl "unarchived" = some (.str "0")))
      ∧ c9Rec.done_by
          = (if c9Rec.done then lookupField c9BugEl "done" else none) :=
  claim9_done_flags c9BugEl c9Rec (by rfl)


/-- A bug record with the given flags and severity; all other fields
are inert placeholders. -/
def mkBug (archived done : Bool) (sev : String) : Bugreport :=
  { originator := .str "", subject := .str "", msgid := .str "",
    package := .str "", severity := .str sev, owner := .str "",
    summary := .str "", location := .str "", source := .str "",
    pending := .str "", forwarded := .str "", found_versions := .str "",
    fixed_versions := .str "", date := .str "0", log_modified := .str "0",
    tags := [], done := done, done_by := none, archived := archived,
    unarchived := false, bug_num := 1, mergedwith := [], blockedby := [],
    blocks := [], affects := [] }

/-! ## C3 and C4: the derived ordering -/

theorem SEVERITIES_range {s : String} {n : Nat}
    (h : SEVERITIES s = some n) : 1 ≤ n ∧ n ≤ 7 := by
  unfold SEVERITIES at h
  split_ifs at h <;> simp_all <;> omega

theorem sevRankOf_range {v : DecodedValue} {n : Nat}
    (h : sevRankOf v = some n) : 1 ≤ n ∧ n ≤ 7 := by
  cases v with
  | str s => exact SEVERITIES_range (by simpa [sevRankOf] using h)
  | list xs => simp [sevRankOf] at h
  | map kvs => simp [sevRankOf] at h

/-- C3: an archived bug record compares strictly below any
non-archived record, whatever the done flags and (known) severities
are. -/
theorem claim3_archived_below (a b : Bugreport) (ra rb : Nat)
    (hra : sevRankOf a.severity = some ra)
    (hrb : sevRankOf b.severity = some rb)
    (ha : a.archived = true) (hb : b.archived = false) :
    bugLt a b = some true := by
  have h1 := sevRankOf_range hra
  have h2 := sevRankOf_range hrb
  unfold bugLt getValue opennessBase
  rw [hra, hrb]
  simp [ha, hb]
  cases hdb : b.done <;> simp <;> omega

/-- C3 witness: a concrete archived critical bug sorts below a
concrete outstanding wishlist bug. -/
theorem claim3_witness :
    bugLt (mkBug true true "critical") (mkBug false false "wishlist")
      = some true :=
  claim3_archived_below _ _ 7 1 rfl rfl rfl rfl

/-- C4: among records with equal archived and done flags and known
severities, the order is exactly the severity-rank order; and two
records in the same openness tier with the same severity compare as
equal, whatever their other fields are. -/
theorem claim4_severity_order :
    (∀ a b : Bugreport, ∀ ra rb : Nat,
        a.archived = b.archived → a.done = b.done →
        sevRankOf a.severity = some ra → sevRankOf b.severity = some rb →
        (bugLt a b = some true ↔ ra < rb))
      ∧ (∀ a b : Bugreport, ∀ ra : Nat,
          opennessBase a = opennessBase b → a.severity = b.severity →
          sevRankOf a.severity = some ra → bugEq a b = some true) := by
  constructor
  · intro a b ra rb harch hdone hra hrb
    have hbase : opennessBase a = opennessBase b := by
      unfold opennessBase; rw [harch, hdone]
    unfold bugLt getValue
    rw [hra, hrb]
    simp [hbase]
  · intro a b ra hbase hsev hra
    have hrb : sevRankOf b.severity = some ra := by rw [← hsev]; exact hra
    unfold bugEq getValue
    rw [hra, hrb]
    simp [hbase]

/-- C4 witness: instantiations — a minor bug sorts below a grave bug
within the same tier, and two archived normal bugs with different done
flags (same tier 0) compare as equal. -/
theorem claim4_witness :
    (bugLt (mkBug false false "minor") (mkBug false false "grave")
        = some true ↔ 2 < 6)
      ∧ bugEq (mkBug true true "normal") (mkBug true false "normal")
        = some true :=
  ⟨claim4_severity_order.1 _ _ 2 6 rfl rfl rfl rfl,
   claim4_severity_order.2 _ _ 3 rfl rfl rfl⟩


/-! ## C5: batching in get_status -/

theorem chunkBatches_nil : chunkBatches [] = [] := by
  rw [chunkBatches]; rfl

theorem chunkBatches_flatten_aux :
    ∀ n : Nat, ∀ l : List Int, l.length ≤ n →
      (chunkBatches l).flatten = l := by
  intro n
  induction n with
  | zero =>
    intro l hl
    have : l = [] := List.length_eq_zero.mp (Nat.le_zero.mp hl)
    subst this
    simp [chunkBatches_nil]
  | succ n ih =>
    intro l hl
    by_cases he : l.isEmpty
    · have h0 : l = [] := List.isEmpty_iff.mp he
      subst h0
      simp [chunkBatches_nil]
    · have hpos : 0 < l.length := by
        cases l with
        | nil => simp at he
        | cons a t => simp
      have hdl : (l.drop BATCH_SIZE).length ≤ n := by
        simp [BATCH_SIZE]; omega
      rw [chunkBatches]
      simp [he, ih _ hdl, List.take_append_drop]

theorem chunkBatches_flatten (l : List Int) :
    (chunkBatches l).flatten = l :=
  chunkBatches_flatten_aux l.length l (Nat.le_refl _)

theorem chunkBatches_length_aux :
    ∀ n : Nat, ∀ l : List Int, l.length ≤ n →
      (chunkBatches l).length = (l.length + (BATCH_SIZE - 1)) / BATCH_SIZE := by
  intro n
  induction n with
  | zero =>
    intro l hl
    have : l = [] := List.length_eq_zero.mp (Nat.le_zero.mp hl)
    subst this
    simp [chunkBatches_nil, BATCH_SIZE]
  | succ n ih =>
    intro l hl
    by_cases he : l.isEmpty
    · have h0 : l = [] := List.isEmpty_iff.mp he
      subst h0
      simp [chunkBatches_nil, BATCH_SIZE]
    · have hpos : 0 < l.length := by
        cases l with
        | nil => simp at he
        | cons a t => simp
      have hdl : (l.drop BATCH_SIZE).length ≤ n := by
        simp [BATCH_SIZE]; omega
      rw [chunkBatches, if_neg he, List.length_cons, ih _ hdl,
        List.length_drop]
      simp only [BATCH_SIZE]
      omega

theorem chunkBatches_sizes_aux :
    ∀ n : Nat, ∀ l : List Int, l.length ≤ n →
      ∀ c ∈ chunkBatches l, c.length ≤ BATCH_SIZE := by
  intro n
  induction n with
  | zero =>
    intro l hl
    have : l = [] := List.length_eq_zero.mp (Nat.le_zero.mp hl)
    subst this
    simp [chunkBatches_nil]
  | succ n ih =>
    intro l hl c hc
    by_cases he : l.isEmpty
    · have h0 : l = [] := List.isEmpty_iff.mp he
      subst h0
      rw [chunkBatches_nil] at hc
      simp at hc
    · rw [chunkBatches] at hc
      simp [he] at hc
      rcases hc with hc | hc
      · subst hc
        simp [List.length_take]
      · have hdl : (l.drop BATCH_SIZE).length ≤ n := by
          have hpos : 0 < l.length := by
            cases l with
            | nil => simp at he
            | cons a t => simp
          simp [BATCH_SIZE]; omega
        exact ih _ hdl c hc

/-- C5: `get_status` partitions its id list into consecutive batches
of at most `BATCH_SIZE`: the batches concatenate back to the input in
order, the number of SOAP calls is `⌈n / BATCH_SIZE⌉`, the empty list
issues zero calls and returns the empty result without any call, a
list of exactly `BATCH_SIZE` ids issues one call, and a list of
`BATCH_SIZE + 10` ids issues two. -/
theorem claim5_batching
    (call : List Int → List (List (String × DecodedValue)))
    (nrs : List Int) :
    (chunkBatches nrs).flatten = nrs
      ∧ (∀ c ∈ chunkBatches nrs, c.length ≤ BATCH_SIZE)
      ∧ numSoapCalls nrs = (nrs.length + (BATCH_SIZE - 1)) / BATCH_SIZE
      ∧ (nrs = [] → numSoapCalls nrs = 0 ∧ getStatusModel call nrs = .ok [])
      ∧ (nrs.length = BATCH_SIZE → numSoapCalls nrs = 1)
      ∧ (nrs.length = BATCH_SIZE + 10 → numSoapCalls nrs = 2) := by
  have hform := chunkBatches_length_aux nrs.length nrs (Nat.le_refl _)
  refine ⟨chunkBatches_flatten nrs,
    chunkBatches_sizes_aux nrs.length nrs (Nat.le_refl _),
    hform, ?_, ?_, ?_⟩
  · rintro rfl
    constructor
    · simp [numSoapCalls, chunkBatches_nil]
    · unfold getStatusModel
      rw [chunkBatches_nil]
      rfl
  · intro hlen
    unfold numSoapCalls
    rw [hform, hlen]
    rfl
  · intro hlen
    unfold numSoapCalls
    rw [hform, hlen]
    rfl

/-- C5 witness: the concrete call counts — zero calls and an empty
result for the empty input, one call for 500 ids, two calls for 510
ids. -/
theorem claim5_witness :
    numSoapCalls ([] : List Int) = 0
      ∧ getStatusModel (fun _ => []) [] = .ok []
      ∧ numSoapCalls (List.replicate 500 (0 : Int)) = 1
      ∧ numSoapCalls (List.replicate 510 (0 : Int)) = 2 :=
  ⟨((claim5_batching (fun _ => []) []).2.2.2.1 rfl).1,
   ((claim5_batching (fun _ => []) []).2.2.2.1 rfl).2,
   (claim5_batching (fun _ => []) _).2.2.2.2.1
     (by rw [List.length_replicate]; rfl),
   (claim5_batching (fun _ => []) _).2.2.2.2.2
     (by rw [List.length_replicate]; rfl)⟩


/-! ## C6: the base64Binary branch -/

/-- C6 (amended): decoding an element whose declared type is
base64Binary base64-decodes the text and then UTF-8-decodes the bytes
with lossy replacement (`utf8LossyStr` is total, so invalid UTF-8
never raises) — but the base64 step itself *can* raise: when
`base64.b64decode` rejects the text (bad padding or non-ASCII input),
decoding fails with that error instead of returning a string. -/
theorem claim6_base64 (tag : String) (typA arrA : Option String)
    (txt : Option String) (children : List Element)
    (htyp : pyTypStrip typA = some "base64Binary") :
    decodeValue (.mk tag typA arrA txt children)
      = (match b64decodePy (txt.getD "") with
         | some bs => .ok (.str (utf8LossyStr bs))
         | none => .error DecErr.binasciiError) := by
  cases hb : b64decodePy (txt.getD "") with
  | some bs => simp [decodeValue, htyp, hb]
  | none => simp [decodeValue, htyp, hb]

/-- C6 witness: "QQ==" decodes to the byte 65, hence to the string
"A". -/
theorem claim6_witness :
    decodeValue (.mk "item" (some "xs:base64Binary") none (some "QQ==") [])
      = .ok (.str (utf8LossyStr [65])) :=
  claim6_base64 "item" (some "xs:base64Binary") none (some "QQ==") [] rfl

/-- C6 counterexample: the text "a" is rejected by the base64 decoder
(one data character cannot fill a quad — CPython raises
binascii.Error), so a base64Binary element holding it does *not*
decode to a string: decoding raises. -/
theorem claim6_counterexample :
    decodeValue (.mk "item" (some "xs:base64Binary") none (some "a") [])
      = .error DecErr.binasciiError := rfl

/-! ## C7: the Map branch -/

/-- C7 (amended): with declared type Map, if any child does not have
exactly two sub-elements, decoding fails with an *AssertionError*
(the `assert` in the source) — a different exception kind than the
ValueError the decoder raises for unsupported types — and when every
child has exactly two sub-elements the result is the dict built from
each child's decoded first sub-element (key) and decoded second
sub-element (value). -/
theorem claim7_map_branch (tag : String) (typA arrA : Option String)
    (txt : Option String) (children : List Element)
    (htyp : pyTypStrip typA = some "Map") :
    (children.all (fun item => item.children.length = 2) = false →
        decodeValue (.mk tag typA arrA txt children)
          = .error DecErr.assertionError)
      ∧ (children.all (fun item => item.children.length = 2) = true →
        decodeValue (.mk tag typA arrA txt children)
          = (decodeMapItems children []).map DecodedValue.map) := by
  constructor <;> intro hall <;> simp [decodeValue, htyp, hall]

/-- C7 witness: a well-formed Map element with one (key, value) child
decodes to the mapping from the decoded key to the decoded value. -/
theorem claim7_witness :
    decodeValue (Element.mk "m" (some "apachens:Map") none none
        [Element.mk "item" none none none
          [Element.mk "k" (some "xsd:string") none (some "a") [],
           Element.mk "v" (some "xsd:int") none (some "1") []]])
      = .ok (.map [(.str "a", .str "1")]) := by
  rw [(claim7_map_branch "m" (some "apachens:Map") none none
    [Element.mk "item" none none none
      [Element.mk "k" (some "xsd:string") none (some "a") [],
       Element.mk "v" (some "xsd:int") none (some "1") []]] rfl).2 rfl]
  rfl

/-- C7 counterexample: a Map element whose only child has a single
sub-element fails with an AssertionError, which is not the
ValueError (the spec's DecodingError) of the unsupported-type
branch — a different error kind. -/
theorem claim7_counterexample :
    decodeValue (Element.mk "m" (some "apachens:Map") none none
        [Element.mk "item" none none none
          [Element.mk "k" (some "xsd:string") none (some "a") []]])
      = .error DecErr.assertionError
      ∧ DecErr.isValueError DecErr.assertionError = false :=
  ⟨rfl, rfl⟩

/-! ## C8: SOAP fault handling -/

/-- C8: when the response body contains a Fault element, decoding
fails with the RuntimeError built from the fault's faultstring text,
so the error message contains the faultstring verbatim; no ordinary
value is returned. -/
theorem claim8_fault (root faultEl msgEl : Element) (s : String)
    (hfault : findPath2 root bodyTag faultTag = some faultEl)
    (hmsg : faultEl.children.find? (fun c => c.tag = "faultstring")
      = some msgEl)
    (htext : msgEl.text = some s) :
    decodeSoapResponse root = .error (.fault ("SOAP fault: " ++ s))
      ∧ ∃ pre post, "SOAP fault: " ++ s = pre ++ s ++ post := by
  refine ⟨?_, "SOAP fault: ", "", by simp⟩
  simp [decodeSoapResponse, hfault, hmsg, htext]

/-- A complete fault response document with faultstring "boom". -/
def c8FaultResp : Element :=
  .mk "env" none none none
    [.mk bodyTag none none none
      [.mk faultTag none none none
        [.mk "faultcode" none none (some "123") [],
         .mk "faultstring" none none (some "boom") []]]]

/-- C8 witness: the fault response with faultstring "boom" fails with
the message "SOAP fault: boom". -/
theorem claim8_witness :
    decodeSoapResponse c8FaultResp = .error (.fault "SOAP fault: boom") :=
  (claim8_fault c8FaultResp
    (.mk faultTag none none none
      [.mk "faultcode" none none (some "123") [],
       .mk "faultstring" none none (some "boom") []])
    (.mk "faultstring" none none (some "boom") [])
    "boom" rfl rfl rfl).1

/-! ## C10: namespace prefixes on the type attribute -/

/-- C10: the decoder looks only at the part of the type attribute
after the first ":" (the whole attribute when there is no colon), so
two elements that differ only in the prefix of their (non-empty) type
attribute decode identically — except that in the unsupported-type
case each failure names its own element in the raised ValueError. -/
theorem claim10_colon_strip (tag : String) (arrA : Option String)
    (txt : Option String) (children : List Element) (t1 t2 : String)
    (h1 : t1 ≠ "") (h2 : t2 ≠ "")
    (hstrip : afterFirstColon t1 = afterFirstColon t2) :
    decodeValue (.mk tag (some t1) arrA txt children)
        = decodeValue (.mk tag (some t2) arrA txt children)
      ∨ (decodeValue (.mk tag (some t1) arrA txt children)
            = .error (.valueError (.mk tag (some t1) arrA txt children))
          ∧ decodeValue (.mk tag (some t2) arrA txt children)
            = .error (.valueError (.mk tag (some t2) arrA txt children))) := by
  have ht : pyTypStrip (some t1) = pyTypStrip (some t2) := by
    simp [pyTypStrip, h1, h2, hstrip]
  by_cases c1 : pyTypStrip (some t2) = some "string"
      ∨ pyTypStrip (some t2) = some "int"
      ∨ pyTypStrip (some t2) = some "float"
  · left; simp [decodeValue, ht, c1]
  · by_cases c2 : pyTypStrip (some t2) = some "base64Binary"
    · left; simp [decodeValue, ht, c1, c2]
    · by_cases c3 : pyTypStrip (some t2) = some "Array"
      · left; simp [decodeValue, ht, c1, c2, c3]
      · by_cases c4 : pyTypStrip (some t2) = some "Map"
        · left; simp [decodeValue, ht, c1, c2, c3, c4]
        · have c5 : pyTypStrip (some t2) ≠ none := by
            simp [pyTypStrip, h2]
          right
          constructor <;> simp [decodeValue, ht, c1, c2, c3, c4, c5]

/-- C10 witness: "xsd:int" and "ns1:int" decode identically. -/
theorem claim10_witness :
    decodeValue (.mk "i" (some "xsd:int") none (some "5") [])
        = decodeValue (.mk "i" (some "ns1:int") none (some "5") [])
      ∨ (decodeValue (.mk "i" (some "xsd:int") none (some "5") [])
            = .error (.valueError (.mk "i" (some "xsd:int") none (some "5") []))
          ∧ decodeValue (.mk "i" (some "ns1:int") none (some "5") [])
            = .error (.valueError (.mk "i" (some "ns1:int") none (some "5") []))) :=
  claim10_colon_strip "i" none (some "5") [] "xsd:int" "ns1:int"
    (by decide) (by decide) rfl

end Debianbts
